import Mathlib

/-
Verification development for the streamflow-postgresql persistence plugin.

The embedding models the PostgreSQLDatabase class of
streamflow/plugins/unito/postgresql/database.py (the asyncpg revision) and,
where the older aiopg revision in streamflow_postgresql/database.py diverges,
that revision as well.  Rows returned by the record-style cursors are
string-keyed mappings, modelled as association lists from column names to
column values.  Each SQL statement used by the source is modelled by its
effect on the table it touches; the dynamically formatted UPDATE statements
are additionally modelled as the literal statement strings handed to the
backing engine.
-/

namespace StreamFlowPG

/-- Column values as they travel between the store and the backing engine.
`bytes` stands for a concrete byte sequence (Python `bytes`/`bytearray`),
`memview` for the streaming view buffer (`memoryview`) some engines hand
back for binary columns before the store materializes it. -/
inductive Value where
  | int : Int → Value
  | str : String → Value
  | bytes : List Nat → Value
  | memview : List Nat → Value
  | bool : Bool → Value
  | null : Value
deriving DecidableEq, Repr

/-- A row, as produced by the dict-style cursors of the source: an
association list from column names to values. -/
abbrev Row := List (String × Value)

abbrev Table := List Row

/-- Column names used by the schema. -/
def idCol : String := "id"

def nameCol : String := "name"

def workflowCol : String := "workflow"

def statusCol : String := "status"

def typeCol : String := "type"

def paramsCol : String := "params"

def stepCol : String := "step"

def portCol : String := "port"

def tagCol : String := "tag"

def valueCol : String := "value"

def configCol : String := "config"

def externalCol : String := "external"

def lazyCol : String := "lazy"

def workdirCol : String := "workdir"

def deploymentCol : String := "deployment"

def locationsCol : String := "locations"

def serviceCol : String := "service"

def dependeeCol : String := "dependee"

def dependerCol : String := "depender"

/-- Read a column of a row (`row[c]` on a dict row). -/
def getCol (r : Row) (c : String) : Option Value :=
  (r.find? (fun p => p.1 == c)).map (fun p => p.2)

/-- Assign a column of a row (the effect of `SET c = v` on a row that has
column `c`; a row never gains columns from an UPDATE). -/
def setCol (r : Row) (c : String) (v : Value) : Row :=
  r.map (fun p => if p.1 == c then (c, v) else p)

/-- Result of `SELECT * FROM t WHERE id = k` under a dict cursor in the
single-row (`fetchrow` / `fetchone`) form. -/
def findRow (t : Table) (k : Nat) : Option Row :=
  t.find? (fun r => getCol r idCol == some (Value.int k))

/-- Per-entity-kind read cache of the CachedDatabase base class, keyed by
identifier.  The cachedmethod decorator stores whatever the wrapped method
returned, including an absent row. -/
abbrev Cache := List (Nat × Option Row)

def cacheLookup (c : Cache) (k : Nat) : Option (Option Row) :=
  (c.find? (fun e => e.1 == k)).map (fun e => e.2)

def cachePop (c : Cache) (k : Nat) : Cache :=
  c.filter (fun e => e.1 != k)

/-- Token cache: get_token only ever caches successfully fetched,
already-normalized rows (an exception propagates uncached). -/
abbrev TokenCache := List (Nat × Row)

def tokenCacheLookup (c : TokenCache) (k : Nat) : Option Row :=
  (c.find? (fun e => e.1 == k)).map (fun e => e.2)

def tokenCachePop (c : TokenCache) (k : Nat) : TokenCache :=
  c.filter (fun e => e.1 != k)

/-- Direction tag of a dependency edge, from streamflow.core.persistence;
only the distinctness of the two enum values matters here. -/
inductive DependencyType where
  | INPUT
  | OUTPUT
deriving DecidableEq, Repr

def DependencyType.value : DependencyType → Int
  | .INPUT => 0
  | .OUTPUT => 1

/-- Full state of the PostgreSQLDatabase: one table per entity kind, the
per-kind read caches of the CachedDatabase base class, and the sequence
the engine draws generated identifiers from. -/
structure DBState where
  workflows : Table
  steps : Table
  ports : Table
  targets : Table
  deployments : Table
  tokens : Table
  dependency : Table
  provenance : Table
  workflowCache : Cache
  stepCache : Cache
  portCache : Cache
  targetCache : Cache
  deploymentCache : Cache
  tokenCache : TokenCache
  nextId : Nat
deriving DecidableEq, Repr

def initState : DBState :=
  { workflows := [], steps := [], ports := [], targets := [], deployments := []
    tokens := [], dependency := [], provenance := []
    workflowCache := [], stepCache := [], portCache := [], targetCache := []
    deploymentCache := [], tokenCache := [], nextId := 1 }

def optInt : Option Nat → Value
  | none => Value.null
  | some n => Value.int n

/-- Row built by the INSERT of add_step. -/
def stepRow (id : Nat) (nm : String) (wf : Nat) (st : Int) (ty ps : String) : Row :=
  [(idCol, Value.int id), (nameCol, Value.str nm), (workflowCol, Value.int wf),
   (statusCol, Value.int st), (typeCol, Value.str ty), (paramsCol, Value.str ps)]

/-- add_step: INSERT INTO step(name, workflow, status, type, params) RETURNING id. -/
def add_step (nm : String) (wf : Nat) (st : Int) (ty ps : String) (s : DBState) :
    DBState × Nat :=
  ({ s with steps := s.steps ++ [stepRow s.nextId nm wf st ty ps],
            nextId := s.nextId + 1 }, s.nextId)

/-- Row built by the INSERT of add_port. -/
def portRow (id : Nat) (nm : String) (wf : Nat) (ty ps : String) : Row :=
  [(idCol, Value.int id), (nameCol, Value.str nm), (workflowCol, Value.int wf),
   (typeCol, Value.str ty), (paramsCol, Value.str ps)]

/-- add_port: INSERT INTO port(name, workflow, type, params) RETURNING id. -/
def add_port (nm : String) (wf : Nat) (ty ps : String) (s : DBState) : DBState × Nat :=
  ({ s with ports := s.ports ++ [portRow s.nextId nm wf ty ps],
            nextId := s.nextId + 1 }, s.nextId)

/-- Row built by the INSERT of add_workflow. -/
def workflowRow (id : Nat) (nm ps : String) (st : Int) (ty : String) : Row :=
  [(idCol, Value.int id), (nameCol, Value.str nm), (paramsCol, Value.str ps),
   (statusCol, Value.int st), (typeCol, Value.str ty)]

/-- add_workflow: INSERT INTO workflow(name, params, status, type) RETURNING id. -/
def add_workflow (nm ps : String) (st : Int) (ty : String) (s : DBState) :
    DBState × Nat :=
  ({ s with workflows := s.workflows ++ [workflowRow s.nextId nm ps st ty],
            nextId := s.nextId + 1 }, s.nextId)

/-- Row built by the INSERT of add_deployment. -/
def deploymentRow (id : Nat) (nm ty cfg : String) (ext lzy : Bool)
    (wd : Option String) : Row :=
  [(idCol, Value.int id), (nameCol, Value.str nm), (typeCol, Value.str ty),
   (configCol, Value.str cfg), (externalCol, Value.bool ext),
   (lazyCol, Value.bool lzy),
   (workdirCol, match wd with | none => Value.null | some w => Value.str w)]

/-- add_deployment: INSERT INTO deployment(...) RETURNING id. -/
def add_deployment (nm ty cfg : String) (ext lzy : Bool) (wd : Option String)
    (s : DBState) : DBState × Nat :=
  ({ s with deployments := s.deployments ++ [deploymentRow s.nextId nm ty cfg ext lzy wd],
            nextId := s.nextId + 1 }, s.nextId)

/-- Row built by the INSERT of add_target. -/
def targetRow (id : Nat) (ps ty : String) (dep : Nat) (locs : Int)
    (svc wd : Option String) : Row :=
  [(idCol, Value.int id), (paramsCol, Value.str ps), (typeCol, Value.str ty),
   (deploymentCol, Value.int dep), (locationsCol, Value.int locs),
   (serviceCol, match svc with | none => Value.null | some v => Value.str v),
   (workdirCol, match wd with | none => Value.null | some v => Value.str v)]

/-- add_target: INSERT INTO target(...) RETURNING id. -/
def add_target (dep : Nat) (ty ps : String) (locs : Int) (svc wd : Option String)
    (s : DBState) : DBState × Nat :=
  ({ s with targets := s.targets ++ [targetRow s.nextId ps ty dep locs svc wd],
            nextId := s.nextId + 1 }, s.nextId)

/-- Row built by the INSERT of add_token.  The source encodes the caller
value to its UTF-8 byte sequence before storing it; `v` here is that byte
sequence (so the empty byte sequence and non-ASCII text are the cases
`v = []` and `v` containing bytes above 127). -/
def tokenRow (id : Nat) (port : Option Nat) (ty tg : String) (v : List Nat) : Row :=
  [(idCol, Value.int id), (portCol, optInt port), (typeCol, Value.str ty),
   (tagCol, Value.str tg), (valueCol, Value.bytes v)]

/-- add_token: INSERT INTO token(port, type, tag, value) RETURNING id. -/
def add_token (tg ty : String) (v : List Nat) (port : Option Nat) (s : DBState) :
    DBState × Nat :=
  ({ s with tokens := s.tokens ++ [tokenRow s.nextId port ty tg v],
            nextId := s.nextId + 1 }, s.nextId)

/-- Dependency edge row: INSERT INTO dependency(step, port, type, name). -/
def depRow (st p : Nat) (d : DependencyType) (nm : String) : Row :=
  [(stepCol, Value.int st), (portCol, Value.int p),
   (typeCol, Value.int d.value), (nameCol, Value.str nm)]

/-- Provenance edge row: INSERT INTO provenance(dependee, depender). -/
def provRow (dependee depender : Nat) : Row :=
  [(dependeeCol, Value.int dependee), (dependerCol, Value.int depender)]

/-- Modelled from the spec: the schema definition file
(schemas/postgresql.sql) is not part of the sources at hand, and it is what
declares the uniqueness constraint the ON CONFLICT DO NOTHING clauses of
add_dependency and add_provenance resolve against.  The spec states that
dependency and provenance edges are sets keyed by their full edge tuple and
that re-inserting an identical edge is a no-op, so an edge insert with
ON CONFLICT DO NOTHING keeps the table unchanged exactly when the identical
row is already present. -/
def insertEdge (t : Table) (r : Row) : Table :=
  if r ∈ t then t else t ++ [r]

/-- add_dependency: idempotent dependency edge insertion. -/
def add_dependency (st p : Nat) (d : DependencyType) (nm : String) (s : DBState) :
    DBState :=
  { s with dependency := insertEdge s.dependency (depRow st p d nm) }

/-- add_provenance: one idempotent edge insert per dependee, depender fixed. -/
def add_provenance (inputs : List Nat) (token : Nat) (s : DBState) : DBState :=
  { s with provenance :=
      inputs.foldl (fun t i => insertEdge t (provRow i token)) s.provenance }

/-- Behavior shared by all cachedmethod-decorated point gets: consult the
kind cache first; on a hit return the cached result without touching the
engine; on a miss fetch the row, record the result in the cache and return
it. -/
def genCachedGet (t : Table) (c : Cache) (k : Nat) : Cache × Option Row :=
  match cacheLookup c k with
  | some v => (c, v)
  | none => ((k, findRow t k) :: c, findRow t k)

/-- get_step (asyncpg revision): cachedmethod over step_cache around
SELECT * FROM step WHERE id = $1. -/
def get_step (k : Nat) (s : DBState) : DBState × Option Row :=
  let p := genCachedGet s.steps s.stepCache k
  ({ s with stepCache := p.1 }, p.2)

/-- get_port (asyncpg revision): cachedmethod over port_cache. -/
def get_port (k : Nat) (s : DBState) : DBState × Option Row :=
  let p := genCachedGet s.ports s.portCache k
  ({ s with portCache := p.1 }, p.2)

/-- get_target (asyncpg revision): cachedmethod over target_cache. -/
def get_target (k : Nat) (s : DBState) : DBState × Option Row :=
  let p := genCachedGet s.targets s.targetCache k
  ({ s with targetCache := p.1 }, p.2)

/-- get_deployment (asyncpg revision): cachedmethod over deployment_cache. -/
def get_deployment (k : Nat) (s : DBState) : DBState × Option Row :=
  let p := genCachedGet s.deployments s.deploymentCache k
  ({ s with deploymentCache := p.1 }, p.2)

/-- get_workflow: plain uncached point lookup. -/
def get_workflow (k : Nat) (s : DBState) : Option Row :=
  findRow s.workflows k

/-- Materialization step of get_token: `bytearray(v) if isinstance(v,
memoryview) else v`. -/
def materialize : Value → Value
  | Value.memview bs => Value.bytes bs
  | v => v

/-- Transport representation chosen by the backing engine when it hands a
binary column back to the client: some engines present a byte column as a
streaming view buffer (memoryview), others as plain bytes. -/
def transport (mv : Bool) : Value → Value
  | Value.bytes bs => if mv then Value.memview bs else Value.bytes bs
  | v => v

/-- Per-column normalization get_token applies to the fetched row. -/
def normalizeRow (mv : Bool) (r : Row) : Row :=
  r.map (fun p => (p.1, materialize (transport mv p.2)))

def noneTypeErr : String := "AttributeError: NoneType has no attribute items"

/-- get_token: cachedmethod over token_cache around SELECT * FROM token
WHERE id = $1, followed by the per-column memoryview materialization.  The
dict comprehension over the fetched row dereferences the row value, so a
missing identifier raises instead of yielding an absent result; the raise
propagates before anything is cached.  `mv` is the transport representation
the engine picked for this fetch. -/
def get_token (mv : Bool) (k : Nat) (s : DBState) : DBState × Except String Row :=
  match tokenCacheLookup s.tokenCache k with
  | some r => (s, Except.ok r)
  | none =>
    match findRow s.tokens k with
    | none => (s, Except.error noneTypeErr)
    | some r =>
        let r' := normalizeRow mv r
        ({ s with tokenCache := (k, r') :: s.tokenCache }, Except.ok r')

/-- get_dependees: SELECT * FROM provenance WHERE depender = $1. -/
def get_dependees (k : Nat) (s : DBState) : Table :=
  s.provenance.filter (fun r => getCol r dependerCol == some (Value.int k))

/-- get_dependers: SELECT * FROM provenance WHERE dependee = $1. -/
def get_dependers (k : Nat) (s : DBState) : Table :=
  s.provenance.filter (fun r => getCol r dependeeCol == some (Value.int k))

/-- get_input_ports: dependency edges of a step with direction INPUT. -/
def get_input_ports (stepId : Nat) (s : DBState) : Table :=
  s.dependency.filter (fun r =>
    getCol r stepCol == some (Value.int stepId) &&
    getCol r typeCol == some (Value.int DependencyType.INPUT.value))

/-- get_output_ports: dependency edges of a step with direction OUTPUT. -/
def get_output_ports (stepId : Nat) (s : DBState) : Table :=
  s.dependency.filter (fun r =>
    getCol r stepCol == some (Value.int stepId) &&
    getCol r typeCol == some (Value.int DependencyType.OUTPUT.value))

/-- get_input_steps: dependency edges of a port with direction OUTPUT (the
steps feeding the port are those the port is an output of). -/
def get_input_steps (portId : Nat) (s : DBState) : Table :=
  s.dependency.filter (fun r =>
    getCol r portCol == some (Value.int portId) &&
    getCol r typeCol == some (Value.int DependencyType.OUTPUT.value))

/-- get_output_steps: dependency edges of a port with direction INPUT. -/
def get_output_steps (portId : Nat) (s : DBState) : Table :=
  s.dependency.filter (fun r =>
    getCol r portCol == some (Value.int portId) &&
    getCol r typeCol == some (Value.int DependencyType.INPUT.value))

/-- Integer read of the id column (`row[0]` / `row["id"]`). -/
def rowIdInt (r : Row) : Int :=
  match getCol r idCol with
  | some (Value.int i) => i
  | _ => 0

/-- get_port_tokens: the source selects from the PORT table keyed by the
port id and projects the id column of the hits. -/
def get_port_tokens (p : Nat) (s : DBState) : List Int :=
  (s.ports.filter (fun r => getCol r idCol == some (Value.int p))).map rowIdInt

/-- Descending insertion used to model ORDER BY id DESC. -/
def insertDesc (r : Row) : Table → Table
  | [] => [r]
  | x :: xs => if rowIdInt x < rowIdInt r then r :: x :: xs else x :: insertDesc r xs

def sortByIdDesc (t : Table) : Table :=
  t.foldr insertDesc []

/-- Workflow rows matching a name. -/
def workflowsNamed (s : DBState) (nm : String) : Table :=
  s.workflows.filter (fun r => getCol r nameCol == some (Value.str nm))

/-- get_workflows_by_name (aiopg revision, the one the claims cite):
SELECT * FROM workflow WHERE name = ... ORDER BY id DESC; with last_only
the result is the single-element list around fetchone (which is the absent
marker when no row matched), otherwise fetchall. -/
def get_workflows_by_name (nm : String) (lastOnly : Bool) (s : DBState) :
    List (Option Row) :=
  let rows := sortByIdDesc (workflowsNamed s nm)
  if lastOnly then [rows.head?] else rows.map some

/-- Statement text pieces of the dynamically formatted UPDATE statements. -/
def sqlUpdateKw : String := "UPDATE "

def sqlSetKw : String := " SET "

def commaSep : String := ", "

def eqDollar : String := " = $"

def sqlWhereTail : String := " WHERE id = $1"

def stepTbl : String := "step"

def portTbl : String := "port"

def deploymentTbl : String := "deployment"

def targetTbl : String := "target"

def workflowTbl : String := "workflow"

/-- Statement string built by the update methods of the asyncpg revision:
the assignment list enumerates the update mapping keys with positional
parameters starting at $2, joined by commas. -/
def sqlUpdateStmt (tbl : String) (keys : List String) : String :=
  sqlUpdateKw ++ tbl ++ sqlSetKw ++
    String.intercalate commaSep
      (keys.enum.map (fun p => p.2 ++ eqDollar ++ toString (p.1 + 2))) ++
    sqlWhereTail

/-- Statements an update method hands to the backing engine: the formatted
UPDATE statement is executed unconditionally, with no emptiness guard on
the update mapping. -/
def updateStmtsIssued (tbl : String) (u : List (String × Value)) : List String :=
  [sqlUpdateStmt tbl (u.map Prod.fst)]

/-- Literal statement produced for an empty update mapping. -/
def emptySetStmt : String := "UPDATE step SET  WHERE id = $1"

def sqlSyntaxErr : String := "syntax error at or near WHERE"

/-- Effect of the SET assignment list on one row, left to right. -/
def applyAssigns (r : Row) (u : List (String × Value)) : Row :=
  u.foldl (fun acc kv => setCol acc kv.1 kv.2) r

/-- Effect of UPDATE tbl SET ... WHERE id = k on a table. -/
def updateRows (t : Table) (k : Nat) (u : List (String × Value)) : Table :=
  t.map (fun r =>
    if getCol r idCol == some (Value.int k) then applyAssigns r u else r)

/-- Engine-side execution of the formatted UPDATE statement: an empty
assignment list is a syntax error raised by the engine (the statement was
still issued); otherwise the matched rows are assigned. -/
def engineExecUpdate (t : Table) (k : Nat) (u : List (String × Value)) :
    Except String Table :=
  if u.isEmpty then Except.error sqlSyntaxErr else Except.ok (updateRows t k u)

/-- update_step (asyncpg revision): execute the formatted statement with
the update values bound positionally after the identifier, pop the step
cache entry, return the identifier. -/
def update_step (k : Nat) (u : List (String × Value)) (s : DBState) :
    Except String (DBState × Nat) :=
  (engineExecUpdate s.steps k u).map
    (fun t => ({ s with steps := t, stepCache := cachePop s.stepCache k }, k))

/-- update_port (asyncpg revision). -/
def update_port (k : Nat) (u : List (String × Value)) (s : DBState) :
    Except String (DBState × Nat) :=
  (engineExecUpdate s.ports k u).map
    (fun t => ({ s with ports := t, portCache := cachePop s.portCache k }, k))

/-- update_target (asyncpg revision). -/
def update_target (k : Nat) (u : List (String × Value)) (s : DBState) :
    Except String (DBState × Nat) :=
  (engineExecUpdate s.targets k u).map
    (fun t => ({ s with targets := t, targetCache := cachePop s.targetCache k }, k))

/-- update_deployment (asyncpg revision). -/
def update_deployment (k : Nat) (u : List (String × Value)) (s : DBState) :
    Except String (DBState × Nat) :=
  (engineExecUpdate s.deployments k u).map
    (fun t => ({ s with deployments := t,
                        deploymentCache := cachePop s.deploymentCache k }, k))

/-- update_workflow (asyncpg revision). -/
def update_workflow (k : Nat) (u : List (String × Value)) (s : DBState) :
    Except String (DBState × Nat) :=
  (engineExecUpdate s.workflows k u).map
    (fun t => ({ s with workflows := t,
                        workflowCache := cachePop s.workflowCache k }, k))

/-- Parameter merge of the aiopg revision update methods: the statement
parameters are the update mapping merged with the identifier under the key
id, the identifier written last, so an id key contributed by the update
mapping is overridden by the row identifier before binding. -/
def mergeIdDefense (k : Nat) (u : List (String × Value)) : List (String × Value) :=
  u.map (fun kv => if kv.1 == idCol then (idCol, Value.int k) else kv)

/-- update_port (aiopg revision): same formatted statement, but values are
bound by name against the merged parameter mapping. -/
def update_port_aiopg (k : Nat) (u : List (String × Value)) (s : DBState) :
    Except String (DBState × Nat) :=
  (engineExecUpdate s.ports k (mergeIdDefense k u)).map
    (fun t => ({ s with ports := t, portCache := cachePop s.portCache k }, k))

/-- Handle for the externally created connection pool. -/
structure PoolHandle where
  maxsize : Nat
deriving DecidableEq, Repr

/-- State of PostgreSQLConnectionPool: construction parameters, the lazily
created pool, and a count of how many times the schema definition script
has been executed. -/
structure PoolMgrState where
  dbname : String
  hostname : String
  username : String
  password : String
  timeout : Nat
  maxsize : Nat
  pool : Option PoolHandle
  schemaApplications : Nat
deriving DecidableEq, Repr

/-- Enter of the pool context manager: if no pool exists, create one with
the stored parameters and run the schema definition script on an acquired
connection; otherwise hand back the existing pool untouched. -/
def poolEnter (s : PoolMgrState) : PoolMgrState × PoolHandle :=
  match s.pool with
  | some p => (s, p)
  | none =>
      let p : PoolHandle := { maxsize := s.maxsize }
      ({ s with pool := some p,
                schemaApplications := s.schemaApplications + 1 }, p)

/-- close: release the pooled connections and reset the pool attribute so a
later enter re-creates the pool. -/
def poolClose (s : PoolMgrState) : PoolMgrState :=
  { s with pool := none }

/- Helper lemmas about the row, table and cache primitives. -/

@[simp]
theorem getCol_nil (c : String) : getCol [] c = none := rfl

theorem getCol_cons (p : String × Value) (r : Row) (c : String) :
    getCol (p :: r) c = if p.1 = c then some p.2 else getCol r c := by
  by_cases h : p.1 = c
  · simp [getCol, List.find?_cons_of_pos, beq_iff_eq.mpr h, h]
  · simp [getCol, List.find?_cons_of_neg, beq_eq_false_iff_ne.mpr h, h]

@[simp]
theorem setCol_nil (c : String) (v : Value) : setCol [] c v = [] := rfl

theorem setCol_cons (p : String × Value) (r : Row) (c : String) (v : Value) :
    setCol (p :: r) c v = (if p.1 == c then (c, v) else p) :: setCol r c v := rfl

theorem getCol_setCol_ne (r : Row) {c c2 : String} (v : Value) (h : c ≠ c2) :
    getCol (setCol r c2 v) c = getCol r c := by
  induction r with
  | nil => rfl
  | cons p r ih =>
    by_cases h1 : p.1 = c2
    · have h2 : ¬ c2 = c := fun e => h e.symm
      simp [setCol_cons, getCol_cons, beq_iff_eq.mpr h1, h1, h2, ih]
    · simp [setCol_cons, getCol_cons, beq_eq_false_iff_ne.mpr h1, ih]

theorem getCol_setCol_eq (r : Row) {c : String} {w : Value} (v : Value)
    (h : getCol r c = some w) :
    getCol (setCol r c v) c = some v := by
  induction r with
  | nil => simp at h
  | cons p r ih =>
    by_cases h1 : p.1 = c
    · simp [setCol_cons, getCol_cons, beq_iff_eq.mpr h1, h1]
    · rw [getCol_cons] at h
      simp only [h1, if_false] at h
      simp [setCol_cons, getCol_cons, beq_eq_false_iff_ne.mpr h1, h1, ih h]

@[simp]
theorem applyAssigns_nil (r : Row) : applyAssigns r [] = r := rfl

theorem applyAssigns_cons (r : Row) (kv : String × Value) (u : List (String × Value)) :
    applyAssigns r (kv :: u) = applyAssigns (setCol r kv.1 kv.2) u := rfl

theorem getCol_applyAssigns_not_mem (r : Row) (u : List (String × Value))
    {c : String} (h : c ∉ u.map Prod.fst) :
    getCol (applyAssigns r u) c = getCol r c := by
  induction u generalizing r with
  | nil => rfl
  | cons kv u ih =>
    simp only [List.map_cons, List.mem_cons, not_or] at h
    rw [applyAssigns_cons, ih (setCol r kv.1 kv.2) h.2,
        getCol_setCol_ne r kv.2 h.1]

theorem getCol_applyAssigns_guard (r : Row) (u : List (String × Value))
    {c : String} {w : Value}
    (hg : ∀ kv ∈ u, kv.1 = c → kv.2 = w) (h : getCol r c = some w) :
    getCol (applyAssigns r u) c = some w := by
  induction u generalizing r with
  | nil => exact h
  | cons kv u ih =>
    rw [applyAssigns_cons]
    by_cases h1 : kv.1 = c
    · have hw : kv.2 = w := hg kv (List.mem_cons_self kv u) h1
      refine ih (setCol r kv.1 kv.2) (fun p hp => hg p (List.mem_cons_of_mem kv hp)) ?_
      rw [h1, hw]
      exact getCol_setCol_eq r w h
    · refine ih (setCol r kv.1 kv.2) (fun p hp => hg p (List.mem_cons_of_mem kv hp)) ?_
      rw [getCol_setCol_ne r kv.2 (fun e => h1 e.symm)]
      exact h

@[simp]
theorem findRow_nil (k : Nat) : findRow [] k = none := rfl

theorem findRow_cons (r : Row) (t : Table) (k : Nat) :
    findRow (r :: t) k =
      if getCol r idCol = some (Value.int k) then some r else findRow t k := by
  by_cases h : getCol r idCol = some (Value.int k)
  · simp [findRow, List.find?_cons_of_pos, beq_iff_eq.mpr h, h]
  · simp [findRow, List.find?_cons_of_neg, beq_eq_false_iff_ne.mpr h, h]

theorem findRow_append_none (t t2 : Table) (k : Nat) (h : findRow t k = none) :
    findRow (t ++ t2) k = findRow t2 k := by
  induction t with
  | nil => rfl
  | cons r t ih =>
    rw [findRow_cons] at h
    by_cases h1 : getCol r idCol = some (Value.int k)
    · simp [h1] at h
    · simp only [h1, if_false] at h
      simpa [findRow_cons, h1] using ih h

theorem updateRows_cons (r : Row) (t : Table) (k : Nat) (u : List (String × Value)) :
    updateRows (r :: t) k u =
      (if getCol r idCol == some (Value.int k) then applyAssigns r u else r) ::
        updateRows t k u := rfl

theorem findRow_updateRows (t : Table) (k : Nat) (u : List (String × Value))
    (hid : idCol ∉ u.map Prod.fst) :
    findRow (updateRows t k u) k = (findRow t k).map (fun r => applyAssigns r u) := by
  induction t with
  | nil => rfl
  | cons r t ih =>
    by_cases h1 : getCol r idCol = some (Value.int k)
    · have hpres : getCol (applyAssigns r u) idCol = getCol r idCol :=
        getCol_applyAssigns_not_mem r u hid
      rw [updateRows_cons]
      simp [findRow_cons, beq_iff_eq.mpr h1, hpres, h1]
    · rw [updateRows_cons]
      simp [findRow_cons, beq_eq_false_iff_ne.mpr h1, h1, ih]

theorem updateRows_map_id_col (t : Table) (k : Nat) (u : List (String × Value))
    (hg : ∀ kv ∈ u, kv.1 = idCol → kv.2 = Value.int k) :
    (updateRows t k u).map (fun r => getCol r idCol) =
      t.map (fun r => getCol r idCol) := by
  induction t with
  | nil => rfl
  | cons r t ih =>
    rw [updateRows_cons]
    by_cases h1 : getCol r idCol = some (Value.int k)
    · simp only [beq_iff_eq.mpr h1, if_true, List.map_cons, ih]
      rw [getCol_applyAssigns_guard r u hg h1, h1]
    · simp [beq_eq_false_iff_ne.mpr h1, ih]

theorem mergeIdDefense_guard (k : Nat) (u : List (String × Value)) :
    ∀ kv ∈ mergeIdDefense k u, kv.1 = idCol → kv.2 = Value.int k := by
  intro kv hkv h1
  rcases List.mem_map.mp hkv with ⟨p, _, hp⟩
  by_cases h2 : p.1 = idCol
  · simp [beq_iff_eq.mpr h2] at hp
    rw [← hp]
  · simp [beq_eq_false_iff_ne.mpr h2] at hp
    rw [← hp] at h1
    exact absurd h1 h2

@[simp]
theorem cacheLookup_nil (k : Nat) : cacheLookup [] k = none := rfl

theorem cacheLookup_cons (e : Nat × Option Row) (c : Cache) (k : Nat) :
    cacheLookup (e :: c) k = if e.1 = k then some e.2 else cacheLookup c k := by
  by_cases h : e.1 = k
  · simp [cacheLookup, List.find?_cons_of_pos, beq_iff_eq.mpr h, h]
  · simp [cacheLookup, List.find?_cons_of_neg, beq_eq_false_iff_ne.mpr h, h]

theorem cacheLookup_pop (c : Cache) (k : Nat) :
    cacheLookup (cachePop c k) k = none := by
  induction c with
  | nil => rfl
  | cons e c ih =>
    by_cases h : e.1 = k
    · have hbne : (e.1 != k) = false := by
        simp [bne, beq_iff_eq.mpr h]
      simpa [cachePop, List.filter_cons, hbne] using ih
    · have hne : (e.1 != k) = true := by
        simp [bne, beq_eq_false_iff_ne.mpr h]
      simpa [cachePop, List.filter_cons, hne, cacheLookup_cons, h] using ih

theorem genCachedGet_hit (t : Table) (c : Cache) (k : Nat) (v : Option Row)
    (h : cacheLookup c k = some v) :
    genCachedGet t c k = (c, v) := by
  simp [genCachedGet, h]

theorem genCachedGet_miss (t : Table) (c : Cache) (k : Nat)
    (h : cacheLookup c k = none) :
    genCachedGet t c k = ((k, findRow t k) :: c, findRow t k) := by
  simp [genCachedGet, h]

theorem genCachedGet_cache_after (t : Table) (c : Cache) (k : Nat) :
    cacheLookup (genCachedGet t c k).1 k = some (genCachedGet t c k).2 := by
  cases h : cacheLookup c k with
  | some v => simp [genCachedGet_hit t c k v h, h]
  | none => simp [genCachedGet_miss t c k h, cacheLookup_cons]

theorem genCachedGet_idem (t : Table) (c : Cache) (k : Nat) :
    genCachedGet t (genCachedGet t c k).1 k = genCachedGet t c k := by
  have h := genCachedGet_cache_after t c k
  rw [genCachedGet_hit t (genCachedGet t c k).1 k _ h]

@[simp]
theorem tokenCacheLookup_nil (k : Nat) : tokenCacheLookup [] k = none := rfl

theorem tokenCacheLookup_cons (e : Nat × Row) (c : TokenCache) (k : Nat) :
    tokenCacheLookup (e :: c) k =
      if e.1 = k then some e.2 else tokenCacheLookup c k := by
  by_cases h : e.1 = k
  · simp [tokenCacheLookup, List.find?_cons_of_pos, beq_iff_eq.mpr h, h]
  · simp [tokenCacheLookup, List.find?_cons_of_neg, beq_eq_false_iff_ne.mpr h, h]

theorem insertEdge_self_mem (t : Table) (r : Row) : r ∈ insertEdge t r := by
  by_cases h : r ∈ t
  · simp [insertEdge, h]
  · simp [insertEdge, h]

theorem insertEdge_idem (t : Table) (r : Row) :
    insertEdge (insertEdge t r) r = insertEdge t r := by
  show (if r ∈ insertEdge t r then insertEdge t r else insertEdge t r ++ [r]) =
    insertEdge t r
  rw [if_pos (insertEdge_self_mem t r)]

theorem filter_insertEdge_new (t : Table) (r : Row) (p : Row → Bool)
    (hp : p r = true) (h : t.filter p = []) :
    (insertEdge t r).filter p = [r] := by
  by_cases hm : r ∈ t
  · exact absurd (List.mem_filter.mpr ⟨hm, hp⟩) (by simp [h])
  · simp [insertEdge, hm, List.filter_append, h, hp]

theorem filter_id_len_le_one (t : Table) (c : Value)
    (h : (t.map (fun r => getCol r idCol)).Nodup) :
    (t.filter (fun r => getCol r idCol == some c)).length ≤ 1 := by
  induction t with
  | nil => simp
  | cons r t ih =>
    simp only [List.map_cons, List.nodup_cons] at h
    by_cases hb : getCol r idCol = some c
    · have hrest : t.filter (fun r => getCol r idCol == some c) = [] := by
        rw [List.filter_eq_nil_iff]
        intro a ha hpa
        have hac : getCol a idCol = some c := by simpa using hpa
        exact h.1 (List.mem_map.mpr ⟨a, ha, hac.trans hb.symm⟩)
      simp [List.filter_cons, beq_iff_eq.mpr hb, hrest]
    · simpa [List.filter_cons, beq_eq_false_iff_ne.mpr hb] using ih h.2

theorem getCol_normalizeRow (mv : Bool) (r : Row) (c : String) :
    getCol (normalizeRow mv r) c =
      (getCol r c).map (fun v => materialize (transport mv v)) := by
  induction r with
  | nil => rfl
  | cons p r ih =>
    by_cases h : p.1 = c
    · simp [normalizeRow, getCol_cons, h]
    · simpa [normalizeRow, getCol_cons, h] using ih

theorem upd_get_core (t : Table) (c : Cache) (k : Nat) (u : List (String × Value))
    (hid : idCol ∉ u.map Prod.fst) :
    cacheLookup (cachePop c k) k = none ∧
    (genCachedGet (updateRows t k u) (cachePop c k) k).2 =
      (findRow t k).map (fun r => applyAssigns r u) := by
  refine ⟨cacheLookup_pop c k, ?_⟩
  rw [genCachedGet_miss _ _ _ (cacheLookup_pop c k)]
  exact findRow_updateRows t k u hid

/- Claim theorems. -/

/-- C2: inserting a dependency or provenance edge identical to one already
recorded is a no-op (no duplicate row, no error), and recording the same
provenance edge (dependee = a, depender = b) twice leaves exactly one edge
among the dependees of b. -/
theorem c2_idempotent_edges (s : DBState) (st p : Nat) (d : DependencyType)
    (nm : String) (a b : Nat) (h : get_dependees b s = []) :
    add_dependency st p d nm (add_dependency st p d nm s) =
      add_dependency st p d nm s ∧
    add_provenance [a] b (add_provenance [a] b s) = add_provenance [a] b s ∧
    get_dependees b (add_provenance [a] b (add_provenance [a] b s)) =
      [provRow a b] := by
  have hval : getCol (provRow a b) dependerCol = some (Value.int b) := by
    have hne : ¬ (dependeeCol = dependerCol) := by decide
    simp [provRow, getCol_cons, hne]
  refine ⟨?_, ?_, ?_⟩
  · simp [add_dependency, insertEdge_idem]
  · simp [add_provenance, insertEdge_idem]
  · show (insertEdge (insertEdge s.provenance (provRow a b)) (provRow a b)).filter
        (fun r => getCol r dependerCol == some (Value.int b)) = [provRow a b]
    rw [insertEdge_idem]
    exact filter_insertEdge_new s.provenance (provRow a b) _
      (by simp [hval]) h

/-- C2 witness: on the empty store, recording the provenance edge
(dependee 1, depender 2) twice is idempotent and leaves exactly that edge
among the dependees of 2. -/
theorem c2_witness :
    get_dependees 2 initState = [] ∧
    (add_provenance [1] 2 (add_provenance [1] 2 initState) =
       add_provenance [1] 2 initState ∧
     get_dependees 2 (add_provenance [1] 2 (add_provenance [1] 2 initState)) =
       [provRow 1 2]) :=
  ⟨rfl, (c2_idempotent_edges initState 1 1 DependencyType.INPUT "n" 1 2 rfl).2.1,
   (c2_idempotent_edges initState 1 1 DependencyType.INPUT "n" 1 2 rfl).2.2⟩

/-- C4: the four topology queries are exactly the direction-filtered
projections of the dependency table, with the direction inverted between
the step-centric and the port-centric queries: a step's input ports are its
INPUT edges and its output ports its OUTPUT edges, while a port's input
steps are the edges in which the port has direction OUTPUT and its output
steps those where it has direction INPUT. -/
theorem c4_topology_inversion (s : DBState) (sid pid : Nat) (r : Row) :
    (r ∈ get_input_ports sid s ↔
       r ∈ s.dependency ∧ getCol r stepCol = some (Value.int sid) ∧
         getCol r typeCol = some (Value.int DependencyType.INPUT.value)) ∧
    (r ∈ get_output_ports sid s ↔
       r ∈ s.dependency ∧ getCol r stepCol = some (Value.int sid) ∧
         getCol r typeCol = some (Value.int DependencyType.OUTPUT.value)) ∧
    (r ∈ get_input_steps pid s ↔
       r ∈ s.dependency ∧ getCol r portCol = some (Value.int pid) ∧
         getCol r typeCol = some (Value.int DependencyType.OUTPUT.value)) ∧
    (r ∈ get_output_steps pid s ↔
       r ∈ s.dependency ∧ getCol r portCol = some (Value.int pid) ∧
         getCol r typeCol = some (Value.int DependencyType.INPUT.value)) := by
  refine ⟨?_, ?_, ?_, ?_⟩ <;>
    simp [get_input_ports, get_output_ports, get_input_steps, get_output_steps,
      List.mem_filter, and_assoc]

/-- C5 amended: an update with an empty field mapping fails and modifies no
row, but it is not rejected client-side: the malformed statement (with an
empty assignment list) is still issued to the backing engine, which rejects
it with a syntax error. -/
theorem c5_empty_update_engine_rejects (s : DBState) (k : Nat) :
    update_step k [] s = Except.error sqlSyntaxErr ∧
    updateStmtsIssued stepTbl [] = [emptySetStmt] :=
  ⟨rfl, rfl⟩

/-- C5 counterexample: for the empty update mapping the update method still
hands a (malformed) statement to the backing engine, so the call does
contact the engine, contrary to the claim. -/
theorem c5_counterexample :
    updateStmtsIssued stepTbl [] ≠ [] ∧
    update_step 7 [] initState = Except.error sqlSyntaxErr :=
  ⟨List.cons_ne_nil _ _, rfl⟩

/-- C9: the pool is created lazily on first acquisition and the schema
script runs exactly once per pool lifetime: entering with an existing pool
changes nothing, entering without one creates the pool and applies the
schema once, close resets the pool attribute, and entering again after a
close re-creates the pool and applies the schema once more. -/
theorem c9_pool_lifecycle (s : PoolMgrState) :
    (∀ p, s.pool = some p → poolEnter s = (s, p)) ∧
    (s.pool = none →
       (poolEnter s).1.pool = some { maxsize := s.maxsize } ∧
       (poolEnter s).1.schemaApplications = s.schemaApplications + 1) ∧
    poolEnter ((poolEnter s).1) = ((poolEnter s).1, (poolEnter s).2) ∧
    (poolClose s).pool = none ∧
    (poolEnter (poolClose s)).1.schemaApplications = s.schemaApplications + 1 := by
  refine ⟨?_, ?_, ?_, rfl, ?_⟩
  · intro p hp
    simp [poolEnter, hp]
  · intro hp
    simp [poolEnter, hp]
  · cases hp : s.pool with
    | some p => simp [poolEnter, hp]
    | none => simp [poolEnter, hp]
  · simp [poolEnter, poolClose]

def pool0 : PoolMgrState :=
  { dbname := "sf", hostname := "localhost", username := "u", password := "pw",
    timeout := 20, maxsize := 10, pool := none, schemaApplications := 0 }

/-- C9 witness: from a freshly constructed pool manager, the first enter
creates the pool and applies the schema once, and re-entering after a
close applies it once more. -/
theorem c9_witness :
    pool0.pool = none ∧
    (poolEnter pool0).1.pool = some { maxsize := 10 } ∧
    (poolEnter pool0).1.schemaApplications = 1 ∧
    (poolEnter (poolClose pool0)).1.schemaApplications = 1 :=
  ⟨rfl, ((c9_pool_lifecycle pool0).2.1 rfl).1, ((c9_pool_lifecycle pool0).2.1 rfl).2,
   (c9_pool_lifecycle pool0).2.2.2.2⟩

/-- C10: get_port_tokens queries the port table (not the token table) for
the row whose id equals the argument: with distinct port identifiers the
result has at most one element, every returned value is the queried port
identifier itself, and the result is entirely independent of the token
table, however many tokens sit on the port. -/
theorem c10_port_tokens_from_port_table (s : DBState) (p : Nat)
    (h : (s.ports.map (fun r => getCol r idCol)).Nodup) :
    (get_port_tokens p s).length ≤ 1 ∧
    (∀ x ∈ get_port_tokens p s, x = (p : Int)) ∧
    (∀ tks : Table, get_port_tokens p { s with tokens := tks } =
       get_port_tokens p s) := by
  refine ⟨?_, ?_, fun tks => rfl⟩
  · simpa [get_port_tokens] using filter_id_len_le_one s.ports (Value.int p) h
  · intro x hx
    rcases List.mem_map.mp hx with ⟨r, hr, hxr⟩
    rcases List.mem_filter.mp hr with ⟨_, hpr⟩
    have hid : getCol r idCol = some (Value.int p) := by simpa using hpr
    rw [← hxr]
    simp [rowIdInt, hid]

def c10state : DBState :=
  { initState with
      ports := [portRow 1 "out" 1 "Port" "ps"],
      tokens := [tokenRow 2 (some 1) "Token" "0" [49],
                 tokenRow 3 (some 1) "Token" "0" [50]] }

/-- C10 witness: on a store with one port (id 1) carrying two tokens
(ids 2 and 3), get_port_tokens 1 has at most one element and only ever
yields the port identifier, never a token identifier. -/
theorem c10_witness :
    (c10state.ports.map (fun r => getCol r idCol)).Nodup ∧
    (get_port_tokens 1 c10state).length ≤ 1 ∧
    (∀ x ∈ get_port_tokens 1 c10state, x = (1 : Int)) :=
  ⟨by decide, (c10_port_tokens_from_port_table c10state 1 (by decide)).1,
   (c10_port_tokens_from_port_table c10state 1 (by decide)).2.1⟩

/-- C1: for each cacheable entity kind that has an update operation, a
successful update pops the corresponding kind cache entry and the next get
of the same identifier returns the freshly updated row, computed from the
updated table alone and thus never a previously cached value, whatever the
caches held beforehand. -/
theorem c1_update_evicts_and_get_fresh (s : DBState) (k : Nat)
    (u : List (String × Value)) (hu : u ≠ []) (hid : idCol ∉ u.map Prod.fst) :
    (∃ s1, update_step k u s = Except.ok (s1, k) ∧
       cacheLookup s1.stepCache k = none ∧
       (get_step k s1).2 = (findRow s.steps k).map (fun r => applyAssigns r u)) ∧
    (∃ s1, update_port k u s = Except.ok (s1, k) ∧
       cacheLookup s1.portCache k = none ∧
       (get_port k s1).2 = (findRow s.ports k).map (fun r => applyAssigns r u)) ∧
    (∃ s1, update_target k u s = Except.ok (s1, k) ∧
       cacheLookup s1.targetCache k = none ∧
       (get_target k s1).2 = (findRow s.targets k).map (fun r => applyAssigns r u)) ∧
    (∃ s1, update_deployment k u s = Except.ok (s1, k) ∧
       cacheLookup s1.deploymentCache k = none ∧
       (get_deployment k s1).2 =
         (findRow s.deployments k).map (fun r => applyAssigns r u)) := by
  have hne : u.isEmpty = false := by
    cases u with
    | nil => exact absurd rfl hu
    | cons a l => rfl
  refine ⟨⟨{ s with steps := updateRows s.steps k u, stepCache := cachePop s.stepCache k }, ?_, ?_, ?_⟩, ⟨{ s with ports := updateRows s.ports k u, portCache := cachePop s.portCache k }, ?_, ?_, ?_⟩, ⟨{ s with targets := updateRows s.targets k u, targetCache := cachePop s.targetCache k }, ?_, ?_, ?_⟩, ⟨{ s with deployments := updateRows s.deployments k u, deploymentCache := cachePop s.deploymentCache k }, ?_, ?_, ?_⟩⟩
  · simp [update_step, engineExecUpdate, Except.map, hne]
  · exact cacheLookup_pop s.stepCache k
  · exact (upd_get_core s.steps s.stepCache k u hid).2
  · simp [update_port, engineExecUpdate, Except.map, hne]
  · exact cacheLookup_pop s.portCache k
  · exact (upd_get_core s.ports s.portCache k u hid).2
  · simp [update_target, engineExecUpdate, Except.map, hne]
  · exact cacheLookup_pop s.targetCache k
  · exact (upd_get_core s.targets s.targetCache k u hid).2
  · simp [update_deployment, engineExecUpdate, Except.map, hne]
  · exact cacheLookup_pop s.deploymentCache k
  · exact (upd_get_core s.deployments s.deploymentCache k u hid).2

def c1state : DBState :=
  { initState with
      steps := [stepRow 1 "s0" 1 0 "Step" "ps"],
      stepCache := [(1, some (stepRow 1 "stale" 1 0 "Step" "ps"))] }

def c1upd : List (String × Value) := [(nameCol, Value.str "fresh")]

/-- C1 witness: with a stale cached copy of step 1 already sitting in the
step cache, updating step 1 evicts that entry and the next get_step 1
returns the updated row. -/
theorem c1_witness :
    c1upd ≠ [] ∧ idCol ∉ c1upd.map Prod.fst ∧
    (∃ s1, update_step 1 c1upd c1state = Except.ok (s1, 1) ∧
       cacheLookup s1.stepCache 1 = none ∧
       (get_step 1 s1).2 =
         (findRow c1state.steps 1).map (fun r => applyAssigns r c1upd)) :=
  ⟨by decide, by decide,
   (c1_update_evicts_and_get_fresh c1state 1 c1upd (by decide) (by decide)).1⟩

/-- C3: a token value round-trips byte-for-byte through add_token and
get_token, for every byte sequence including the empty one, and whichever
transport representation (plain bytes or a view buffer) the backing engine
picks, the returned value column is a materialized concrete byte
sequence. -/
theorem c3_token_round_trip (s : DBState) (tg ty : String) (v : List Nat)
    (port : Option Nat) (mv : Bool)
    (ht : findRow s.tokens s.nextId = none)
    (hc : tokenCacheLookup s.tokenCache s.nextId = none) :
    ∃ r, (get_token mv (add_token tg ty v port s).2 (add_token tg ty v port s).1).2 =
           Except.ok r ∧
         getCol r valueCol = some (Value.bytes v) := by
  have hidv : getCol (tokenRow s.nextId port ty tg v) idCol =
      some (Value.int s.nextId) := by
    simp [tokenRow, getCol_cons]
  have hf : findRow (s.tokens ++ [tokenRow s.nextId port ty tg v]) s.nextId =
      some (tokenRow s.nextId port ty tg v) := by
    rw [findRow_append_none _ _ _ ht, findRow_cons, if_pos hidv]
  refine ⟨normalizeRow mv (tokenRow s.nextId port ty tg v), ?_, ?_⟩
  · show (get_token mv s.nextId
      { s with tokens := s.tokens ++ [tokenRow s.nextId port ty tg v],
               nextId := s.nextId + 1 }).2 = _
    simp [get_token, hc, hf]
  · have hval : getCol (tokenRow s.nextId port ty tg v) valueCol =
        some (Value.bytes v) := by
      have h1 : ¬ (idCol = valueCol) := by decide
      have h2 : ¬ (portCol = valueCol) := by decide
      have h3 : ¬ (typeCol = valueCol) := by decide
      have h4 : ¬ (tagCol = valueCol) := by decide
      simp [tokenRow, getCol_cons, h1, h2, h3, h4]
    rw [getCol_normalizeRow, hval]
    cases mv <;> rfl

/-- C3 witness: on the empty store, both the empty byte sequence and a
non-ASCII UTF-8 byte sequence round-trip byte-for-byte, for both engine
transport representations. -/
theorem c3_witness :
    findRow initState.tokens initState.nextId = none ∧
    tokenCacheLookup initState.tokenCache initState.nextId = none ∧
    (∃ r, (get_token true (add_token "0" "Token" [] none initState).2
             (add_token "0" "Token" [] none initState).1).2 = Except.ok r ∧
          getCol r valueCol = some (Value.bytes [])) ∧
    (∃ r, (get_token false (add_token "0" "Token" [240, 159, 166, 132] none
             initState).2
             (add_token "0" "Token" [240, 159, 166, 132] none initState).1).2 =
            Except.ok r ∧
          getCol r valueCol = some (Value.bytes [240, 159, 166, 132])) :=
  ⟨rfl, rfl, c3_token_round_trip initState "0" "Token" [] none true rfl rfl,
   c3_token_round_trip initState "0" "Token" [240, 159, 166, 132] none false rfl rfl⟩

/-- C6 amended: point gets for step, port, target, deployment and workflow
surface a missing identifier as an absent result, but get_token raises on a
missing identifier (its row normalization dereferences the absent row);
listing queries with no matching rows return empty collections, except
get_workflows_by_name with last_only, which returns a one-element list
holding the absent marker. -/
theorem c6_not_found_behavior (s : DBState) (k : Nat) (mv : Bool) (nm : String) :
    (cacheLookup s.stepCache k = none → findRow s.steps k = none →
       (get_step k s).2 = none) ∧
    (cacheLookup s.portCache k = none → findRow s.ports k = none →
       (get_port k s).2 = none) ∧
    (cacheLookup s.targetCache k = none → findRow s.targets k = none →
       (get_target k s).2 = none) ∧
    (cacheLookup s.deploymentCache k = none → findRow s.deployments k = none →
       (get_deployment k s).2 = none) ∧
    (findRow s.workflows k = none → get_workflow k s = none) ∧
    (tokenCacheLookup s.tokenCache k = none → findRow s.tokens k = none →
       (get_token mv k s).2 = Except.error noneTypeErr) ∧
    (workflowsNamed s nm = [] →
       get_workflows_by_name nm false s = [] ∧
       get_workflows_by_name nm true s = [none]) ∧
    (get_dependees k initState = [] ∧ get_dependers k initState = [] ∧
     get_input_ports k initState = [] ∧ get_output_ports k initState = [] ∧
     get_input_steps k initState = [] ∧ get_output_steps k initState = []) := by
  refine ⟨?_, ?_, ?_, ?_, fun h => h, ?_, ?_, rfl, rfl, rfl, rfl, rfl, rfl⟩
  · intro hc hf
    show (genCachedGet s.steps s.stepCache k).2 = none
    rw [genCachedGet_miss _ _ _ hc]
    exact hf
  · intro hc hf
    show (genCachedGet s.ports s.portCache k).2 = none
    rw [genCachedGet_miss _ _ _ hc]
    exact hf
  · intro hc hf
    show (genCachedGet s.targets s.targetCache k).2 = none
    rw [genCachedGet_miss _ _ _ hc]
    exact hf
  · intro hc hf
    show (genCachedGet s.deployments s.deploymentCache k).2 = none
    rw [genCachedGet_miss _ _ _ hc]
    exact hf
  · intro hc hf
    simp [get_token, hc, hf]
  · intro h
    constructor
    · simp [get_workflows_by_name, h, sortByIdDesc]
    · simp [get_workflows_by_name, h, sortByIdDesc]

/-- C6 counterexample: get_token for a nonexistent identifier raises (the
attribute error of dereferencing the absent row) instead of returning an
absent result, and get_workflows_by_name with last_only returns a
non-empty collection holding the absent marker when no row matches. -/
theorem c6_counterexample :
    (get_token false 1 initState).2 = Except.error noneTypeErr ∧
    get_workflows_by_name "w" true initState = [none] :=
  ⟨rfl, rfl⟩

/-- C6 witness: at a concrete missing identifier, get_step yields an absent
result while get_token errors, and the name listing is empty or [absent]
depending on last_only. -/
theorem c6_witness :
    cacheLookup initState.stepCache 3 = none ∧
    findRow initState.steps 3 = none ∧
    (get_step 3 initState).2 = none ∧
    (get_token true 3 initState).2 = Except.error noneTypeErr ∧
    (get_workflows_by_name "nope" false initState = [] ∧
     get_workflows_by_name "nope" true initState = [none]) :=
  ⟨rfl, rfl,
   (c6_not_found_behavior initState 3 true "nope").1 rfl rfl,
   (c6_not_found_behavior initState 3 true "nope").2.2.2.2.2.1 rfl rfl,
   (c6_not_found_behavior initState 3 true "nope").2.2.2.2.2.2.1 rfl⟩

theorem get_step_idem (k : Nat) (s : DBState) :
    get_step k ((get_step k s).1) = ((get_step k s).1, (get_step k s).2) := by
  show ({ s with stepCache :=
            (genCachedGet s.steps ((genCachedGet s.steps s.stepCache k).1) k).1 },
        (genCachedGet s.steps ((genCachedGet s.steps s.stepCache k).1) k).2) =
       ({ s with stepCache := (genCachedGet s.steps s.stepCache k).1 },
        (genCachedGet s.steps s.stepCache k).2)
  rw [genCachedGet_idem s.steps s.stepCache k]

theorem get_port_idem (k : Nat) (s : DBState) :
    get_port k ((get_port k s).1) = ((get_port k s).1, (get_port k s).2) := by
  show ({ s with portCache :=
            (genCachedGet s.ports ((genCachedGet s.ports s.portCache k).1) k).1 },
        (genCachedGet s.ports ((genCachedGet s.ports s.portCache k).1) k).2) =
       ({ s with portCache := (genCachedGet s.ports s.portCache k).1 },
        (genCachedGet s.ports s.portCache k).2)
  rw [genCachedGet_idem s.ports s.portCache k]

theorem get_target_idem (k : Nat) (s : DBState) :
    get_target k ((get_target k s).1) = ((get_target k s).1, (get_target k s).2) := by
  show ({ s with targetCache :=
            (genCachedGet s.targets ((genCachedGet s.targets s.targetCache k).1) k).1 },
        (genCachedGet s.targets ((genCachedGet s.targets s.targetCache k).1) k).2) =
       ({ s with targetCache := (genCachedGet s.targets s.targetCache k).1 },
        (genCachedGet s.targets s.targetCache k).2)
  rw [genCachedGet_idem s.targets s.targetCache k]

theorem get_deployment_idem (k : Nat) (s : DBState) :
    get_deployment k ((get_deployment k s).1) =
      ((get_deployment k s).1, (get_deployment k s).2) := by
  show ({ s with deploymentCache :=
            (genCachedGet s.deployments
              ((genCachedGet s.deployments s.deploymentCache k).1) k).1 },
        (genCachedGet s.deployments
          ((genCachedGet s.deployments s.deploymentCache k).1) k).2) =
       ({ s with deploymentCache :=
            (genCachedGet s.deployments s.deploymentCache k).1 },
        (genCachedGet s.deployments s.deploymentCache k).2)
  rw [genCachedGet_idem s.deployments s.deploymentCache k]

/-- C7: every cacheable point get consults its kind cache first (a hit is
returned with no state change), populates the cache with the fetched
result on a miss, and a repeated get of the same identifier with no
intervening update is served from the cache; get_token behaves the same on
its token cache, caching the normalized row on success. -/
theorem c7_cached_get_policy (s : DBState) (k : Nat) (mv mv2 : Bool) :
    ((∀ v, cacheLookup s.stepCache k = some v → get_step k s = (s, v)) ∧
     (cacheLookup s.stepCache k = none → (get_step k s).2 = findRow s.steps k) ∧
     cacheLookup ((get_step k s).1).stepCache k = some ((get_step k s).2) ∧
     get_step k ((get_step k s).1) = ((get_step k s).1, (get_step k s).2)) ∧
    ((∀ v, cacheLookup s.portCache k = some v → get_port k s = (s, v)) ∧
     (cacheLookup s.portCache k = none → (get_port k s).2 = findRow s.ports k) ∧
     cacheLookup ((get_port k s).1).portCache k = some ((get_port k s).2) ∧
     get_port k ((get_port k s).1) = ((get_port k s).1, (get_port k s).2)) ∧
    ((∀ v, cacheLookup s.targetCache k = some v → get_target k s = (s, v)) ∧
     (cacheLookup s.targetCache k = none → (get_target k s).2 = findRow s.targets k) ∧
     cacheLookup ((get_target k s).1).targetCache k = some ((get_target k s).2) ∧
     get_target k ((get_target k s).1) = ((get_target k s).1, (get_target k s).2)) ∧
    ((∀ v, cacheLookup s.deploymentCache k = some v → get_deployment k s = (s, v)) ∧
     (cacheLookup s.deploymentCache k = none →
        (get_deployment k s).2 = findRow s.deployments k) ∧
     cacheLookup ((get_deployment k s).1).deploymentCache k =
       some ((get_deployment k s).2) ∧
     get_deployment k ((get_deployment k s).1) =
       ((get_deployment k s).1, (get_deployment k s).2)) ∧
    ((∀ r, tokenCacheLookup s.tokenCache k = some r →
        get_token mv k s = (s, Except.ok r)) ∧
     (∀ r, tokenCacheLookup s.tokenCache k = none → findRow s.tokens k = some r →
        get_token mv k s =
          ({ s with tokenCache := (k, normalizeRow mv r) :: s.tokenCache },
           Except.ok (normalizeRow mv r))) ∧
     (∀ r, (get_token mv k s).2 = Except.ok r →
        get_token mv2 k ((get_token mv k s).1) =
          ((get_token mv k s).1, Except.ok r))) := by
  refine ⟨⟨?_, ?_, genCachedGet_cache_after s.steps s.stepCache k,
            get_step_idem k s⟩,
          ⟨?_, ?_, genCachedGet_cache_after s.ports s.portCache k,
            get_port_idem k s⟩,
          ⟨?_, ?_, genCachedGet_cache_after s.targets s.targetCache k,
            get_target_idem k s⟩,
          ⟨?_, ?_, genCachedGet_cache_after s.deployments s.deploymentCache k,
            get_deployment_idem k s⟩,
          ?_, ?_, ?_⟩
  · intro v h
    show ({ s with stepCache := (genCachedGet s.steps s.stepCache k).1 },
      (genCachedGet s.steps s.stepCache k).2) = (s, v)
    rw [genCachedGet_hit s.steps s.stepCache k v h]
  · intro h
    show (genCachedGet s.steps s.stepCache k).2 = findRow s.steps k
    rw [genCachedGet_miss _ _ _ h]
  · intro v h
    show ({ s with portCache := (genCachedGet s.ports s.portCache k).1 },
      (genCachedGet s.ports s.portCache k).2) = (s, v)
    rw [genCachedGet_hit s.ports s.portCache k v h]
  · intro h
    show (genCachedGet s.ports s.portCache k).2 = findRow s.ports k
    rw [genCachedGet_miss _ _ _ h]
  · intro v h
    show ({ s with targetCache := (genCachedGet s.targets s.targetCache k).1 },
      (genCachedGet s.targets s.targetCache k).2) = (s, v)
    rw [genCachedGet_hit s.targets s.targetCache k v h]
  · intro h
    show (genCachedGet s.targets s.targetCache k).2 = findRow s.targets k
    rw [genCachedGet_miss _ _ _ h]
  · intro v h
    show ({ s with deploymentCache :=
        (genCachedGet s.deployments s.deploymentCache k).1 },
      (genCachedGet s.deployments s.deploymentCache k).2) = (s, v)
    rw [genCachedGet_hit s.deployments s.deploymentCache k v h]
  · intro h
    show (genCachedGet s.deployments s.deploymentCache k).2 = findRow s.deployments k
    rw [genCachedGet_miss _ _ _ h]
  · intro r h
    simp [get_token, h]
  · intro r h hf
    simp [get_token, h, hf]
  · intro r h
    cases hc : tokenCacheLookup s.tokenCache k with
    | some r0 =>
      have h1 : get_token mv k s = (s, Except.ok r0) := by simp [get_token, hc]
      rw [h1] at h ⊢
      simp only [Except.ok.injEq] at h
      simp [get_token, hc, h]
    | none =>
      cases hf : findRow s.tokens k with
      | none =>
        have h1 : get_token mv k s = (s, Except.error noneTypeErr) := by
          simp [get_token, hc, hf]
        rw [h1] at h
        simp at h
      | some r0 =>
        have h1 : get_token mv k s =
            ({ s with tokenCache := (k, normalizeRow mv r0) :: s.tokenCache },
             Except.ok (normalizeRow mv r0)) := by
          simp [get_token, hc, hf]
        rw [h1] at h ⊢
        simp only [Except.ok.injEq] at h
        subst h
        have h2 : tokenCacheLookup
            ((k, normalizeRow mv r0) :: s.tokenCache) k =
            some (normalizeRow mv r0) := by
          rw [tokenCacheLookup_cons, if_pos rfl]
        simp [get_token, h2]

def c7state : DBState :=
  { initState with steps := [stepRow 1 "s0" 1 0 "Step" "ps"] }

/-- C7 witness: on a store with step 1 and an empty cache, the first
get_step misses and fetches the row, populates the cache with it, and the
second get_step is served from the cache unchanged. -/
theorem c7_witness :
    cacheLookup c7state.stepCache 1 = none ∧
    (get_step 1 c7state).2 = findRow c7state.steps 1 ∧
    cacheLookup ((get_step 1 c7state).1).stepCache 1 = some ((get_step 1 c7state).2) ∧
    get_step 1 ((get_step 1 c7state).1) =
      ((get_step 1 c7state).1, (get_step 1 c7state).2) :=
  ⟨rfl, (c7_cached_get_policy c7state 1 true true).1.2.1 rfl,
   (c7_cached_get_policy c7state 1 true true).1.2.2.1,
   (c7_cached_get_policy c7state 1 true true).1.2.2.2⟩

/-- C8 amended: both update revisions select the row by the identifier
argument and return that identifier unchanged; but only the aiopg revision
defends against an id key in the field mapping (its parameter merge
overrides the mapping value with the row identifier, leaving every row
identifier unchanged), whereas the asyncpg revision binds the mapping
value positionally, so an id assignment overwrites the row identifier with
the mapping value. -/
theorem c8_update_id_key (s : DBState) (k : Nat) (u : List (String × Value))
    (hu : u ≠ []) :
    (∃ s1, update_port_aiopg k u s = Except.ok (s1, k) ∧
       s1.ports.map (fun r => getCol r idCol) =
         s.ports.map (fun r => getCol r idCol)) ∧
    (∃ s1, update_port k u s = Except.ok (s1, k) ∧
       s1.ports = updateRows s.ports k u) ∧
    (∀ r v, getCol r idCol = some (Value.int k) →
       getCol (applyAssigns r [(idCol, v)]) idCol = some v) := by
  have hne : u.isEmpty = false := by
    cases u with
    | nil => exact absurd rfl hu
    | cons a l => rfl
  have hm : (mergeIdDefense k u).isEmpty = false := by
    cases u with
    | nil => exact absurd rfl hu
    | cons a l => rfl
  refine ⟨⟨{ s with ports := updateRows s.ports k (mergeIdDefense k u), portCache := cachePop s.portCache k }, ?_, ?_⟩, ⟨{ s with ports := updateRows s.ports k u, portCache := cachePop s.portCache k }, ?_, rfl⟩, ?_⟩
  · simp [update_port_aiopg, engineExecUpdate, Except.map, hm]
  · exact updateRows_map_id_col s.ports k (mergeIdDefense k u)
      (mergeIdDefense_guard k u)
  · simp [update_port, engineExecUpdate, Except.map, hne]
  · intro r v h
    show getCol (setCol r idCol v) idCol = some v
    exact getCol_setCol_eq r v h

def c8state : DBState :=
  { initState with ports := [portRow 1 "p" 1 "Port" "ps"] }

/-- C8 counterexample: in the asyncpg revision, updating port 1 with the
mapping holding the single key id bound to 99 rewrites the row identifier
to 99 (so it does not remain the identifier passed as argument), even
though the call still returns the argument identifier 1. -/
theorem c8_counterexample :
    (update_port 1 [(idCol, Value.int 99)] c8state).map
        (fun p => p.1.ports.map (fun r => getCol r idCol)) =
      Except.ok [some (Value.int 99)] ∧
    (update_port 1 [(idCol, Value.int 99)] c8state).map (fun p => p.2) =
      Except.ok 1 :=
  ⟨rfl, rfl⟩

def c8upd : List (String × Value) := [(idCol, Value.int 99)]

/-- C8 witness: for the concrete mapping binding id to 99 on the store with
port 1, the aiopg revision keeps every port row identifier unchanged while
returning the argument identifier. -/
theorem c8_witness :
    c8upd ≠ [] ∧
    (∃ s1, update_port_aiopg 1 c8upd c8state = Except.ok (s1, 1) ∧
       s1.ports.map (fun r => getCol r idCol) =
         c8state.ports.map (fun r => getCol r idCol)) :=
  ⟨by decide, (c8_update_id_key c8state 1 c8upd (by decide)).1⟩

end StreamFlowPG
